import Mathlib

/-!
Verification of the IoT weather-forecast core against its specification.

The definitions below are shallow embeddings of the repository's Python code:

* the Pivoter (`get_weather_forecast` in `app/routes/weather.py`): narrow
  `(timestamp, field, value)` records are merged into a per-timestamp
  dictionary (`by_time`), then the values are listed and stably sorted by
  timestamp.  Timestamps are modelled as `Nat`; a possibly-malformed
  timestamp is modelled as `Option Nat` (`none` = a value on which
  `get_time().isoformat()` raises).  Python dictionaries are modelled as
  association lists with insertion-order semantics: updating an existing key
  keeps its position, inserting a new key appends at the end.  Python's
  `list.sort` is stable; `List.insertionSort` is a stable sort, and since the
  dictionary holds at most one entry per timestamp the choice of stable sort
  does not matter.

* the predictor pipeline (`Robustel EG5120 ML/predictor.py`):
  `load_preprocess`, `normalize_units`, `build_input_vector`, the
  standardization line `x = (x - mean) / std`, the argmax/confidence
  selection in `main`, and the `__main__` error wrapper.  Numeric values are
  modelled as `ℚ`; fallible steps return `Except`.

* the confidence verbalizer (`_confidence_to_verbal` in
  `app/routes/rag.py`).
-/

namespace WeatherIoT

/-! ### Pivoter: `get_weather_forecast` in `app/routes/weather.py` -/

/-- The per-timestamp field dictionary (`by_time[t]`, minus its `"time"` key,
which in the code just repeats the timestamp). -/
abbrev FieldMap := List (String × Int)

/-- Python `by_time[t][field] = value`: replace the value of an existing key
in place, or append a new key at the end. -/
def setField (m : FieldMap) (f : String) (v : Int) : FieldMap :=
  if m.any (fun p => p.1 == f) then
    m.map (fun p => if p.1 == f then (p.1, v) else p)
  else m ++ [(f, v)]

/-- The outer dictionary `by_time`, keyed by timestamp. -/
abbrev ByTime := List (Nat × FieldMap)

/-- One loop iteration of `get_weather_forecast`: seed an unseen timestamp,
then set the record's field (last write wins). -/
def addRecord (bt : ByTime) (t : Nat) (f : String) (v : Int) : ByTime :=
  if bt.any (fun p => p.1 == t) then
    bt.map (fun p => if p.1 == t then (p.1, setField p.2 f v) else p)
  else bt ++ [(t, setField [] f v)]

/-- The record loop of `get_weather_forecast` over a whole batch. -/
def buildByTime (records : List (Nat × String × Int)) : ByTime :=
  records.foldl (fun bt r => addRecord bt r.1 r.2.1 r.2.2) []

/-- The sort key `lambda x: x["time"]` of `result.sort`. -/
def tsLE (a b : Nat × FieldMap) : Prop := a.1 ≤ b.1

instance : DecidableRel tsLE := fun a b => Nat.decLe a.1 b.1

instance : IsTotal (Nat × FieldMap) tsLE := ⟨fun a b => Nat.le_total a.1 b.1⟩

instance : IsTrans (Nat × FieldMap) tsLE := ⟨fun _ _ _ => Nat.le_trans⟩

/-- `get_weather_forecast`'s pivot: build `by_time`, list its values, sort
stably by timestamp. -/
def pivot (records : List (Nat × String × Int)) : List (Nat × FieldMap) :=
  List.insertionSort tsLE (buildByTime records)

/-- The last-write-wins merge of a record list into one field dictionary:
the reference meaning of one `by_time[t]` entry. -/
def lastWins (rs : List (Nat × String × Int)) : FieldMap :=
  rs.foldl (fun m r => setField m r.2.1 r.2.2) []

/-- The record loop with possibly-malformed timestamps:
`record.get_time().isoformat()` raises on a malformed timestamp and there is
no `try` around the loop, so the first malformed record aborts the batch. -/
def buildByTimeE (records : List (Option Nat × String × Int)) : Except String ByTime :=
  records.foldlM (fun bt r =>
    match r.1 with
    | some t => Except.ok (addRecord bt t r.2.1 r.2.2)
    | none => Except.error "AttributeError: timestamp cannot be parsed") []

/-- `get_weather_forecast`'s pivot on a batch that may contain malformed
timestamps. -/
def pivotE (records : List (Option Nat × String × Int)) :
    Except String (List (Nat × FieldMap)) :=
  (buildByTimeE records).map (List.insertionSort tsLE)

/-- Timestamp keys of the `by_time` dictionary. -/
def keysOf (bt : ByTime) : List Nat := bt.map (fun p => p.1)

/-- Invariant of the record loop: after processing `processed`, the
dictionary has distinct timestamp keys, exactly the timestamps of
`processed`, and each entry holds the last-write-wins merge of the records
sharing its timestamp. -/
def Inv (processed : List (Nat × String × Int)) (bt : ByTime) : Prop :=
  (keysOf bt).Nodup ∧
  (∀ t : Nat, t ∈ keysOf bt ↔ t ∈ processed.map (fun r => r.1)) ∧
  (∀ p ∈ bt, p.2 = lastWins (processed.filter (fun r => r.1 == p.1)))

lemma any_key (bt : ByTime) (t : Nat) :
    bt.any (fun p => p.1 == t) = true ↔ t ∈ keysOf bt := by
  rw [List.any_eq_true]
  constructor
  · rintro ⟨p, hp, hpt⟩
    exact List.mem_map.2 ⟨p, hp, by simpa using hpt⟩
  · intro hm
    obtain ⟨p, hp, he⟩ := List.mem_map.1 hm
    exact ⟨p, hp, by simp [he]⟩

lemma filter_one (s t : Nat) (f : String) (v : Int) :
    List.filter (fun r => r.1 == s) [(t, f, v)] = if t = s then [(t, f, v)] else [] := by
  by_cases h : t = s <;> simp [List.filter_cons, h]

lemma lastWins_concat (rs : List (Nat × String × Int)) (r : Nat × String × Int) :
    lastWins (rs ++ [r]) = setField (lastWins rs) r.2.1 r.2.2 := by
  simp [lastWins, List.foldl_append]

lemma inv_nil : Inv [] [] := by
  refine ⟨List.nodup_nil, ?_, ?_⟩ <;> simp [keysOf]

lemma inv_step (processed : List (Nat × String × Int)) (bt : ByTime)
    (h : Inv processed bt) (t : Nat) (f : String) (v : Int) :
    Inv (processed ++ [(t, f, v)]) (addRecord bt t f v) := by
  obtain ⟨hnd, hmem, hval⟩ := h
  by_cases hc : t ∈ keysOf bt
  · have hany : bt.any (fun p => p.1 == t) = true := (any_key bt t).2 hc
    have hkeys : keysOf (bt.map (fun p => if p.1 == t then (p.1, setField p.2 f v) else p))
        = keysOf bt := by
      simp only [keysOf, List.map_map]
      refine List.map_congr_left ?_
      intro p _
      by_cases hp : p.1 = t <;> simp [hp]
    refine ⟨?_, ?_, ?_⟩
    · rw [addRecord, if_pos hany, hkeys]; exact hnd
    · intro s
      rw [addRecord, if_pos hany, hkeys]
      rw [hmem s]
      simp only [List.map_append, List.mem_append, List.map_cons, List.map_nil,
        List.mem_singleton, List.mem_cons]
      constructor
      · intro hs; exact Or.inl hs
      · rintro (hs | hs)
        · exact hs
        · simp only [List.not_mem_nil, or_false] at hs
          rw [hs]
          exact (hmem t).1 hc
    · intro p hp
      rw [addRecord, if_pos hany] at hp
      obtain ⟨q, hq, hqe⟩ := List.mem_map.1 hp
      by_cases hq1 : q.1 = t
      · rw [if_pos (by simpa using hq1)] at hqe
        subst hqe
        show setField q.2 f v = lastWins (List.filter (fun r => r.1 == q.1) (processed ++ [(t, f, v)]))
        rw [List.filter_append, filter_one, if_pos hq1.symm, lastWins_concat]
        exact congrArg (fun m => setField m f v) (hval q hq)
      · rw [if_neg (by simpa using hq1)] at hqe
        subst hqe
        rw [List.filter_append, filter_one, if_neg (fun he => hq1 he.symm), List.append_nil]
        exact hval q hq
  · have hany : bt.any (fun p => p.1 == t) = false := by
      rw [← Bool.not_eq_true, any_key]; exact hc
    have htp : t ∉ processed.map (fun r => r.1) := fun hx => hc ((hmem t).2 hx)
    refine ⟨?_, ?_, ?_⟩
    · rw [addRecord, if_neg (by simp [hany])]
      simp only [keysOf, List.map_append, List.map_cons, List.map_nil]
      rw [List.nodup_append]
      refine ⟨hnd, by simp, ?_⟩
      intro a ha hb
      simp only [List.mem_singleton] at hb
      subst hb
      exact hc ha
    · intro s
      rw [addRecord, if_neg (by simp [hany])]
      simp only [keysOf, List.map_append, List.mem_append, List.map_cons, List.map_nil]
      rw [show (bt.map fun p => p.1) = keysOf bt from rfl, hmem s]
    · intro p hp
      rw [addRecord, if_neg (by simp [hany])] at hp
      rcases List.mem_append.1 hp with hpb | hps
      · have hp1 : p.1 ≠ t := by
          intro he
          exact hc (he ▸ List.mem_map.2 ⟨p, hpb, rfl⟩)
        rw [List.filter_append, filter_one, if_neg (fun he => hp1 he.symm), List.append_nil]
        exact hval p hpb
      · simp only [List.mem_singleton] at hps
        subst hps
        show setField [] f v = lastWins (List.filter (fun r => r.1 == t) (processed ++ [(t, f, v)]))
        rw [List.filter_append, filter_one, if_pos rfl]
        have hf0 : List.filter (fun r => r.1 == t) processed = [] := by
          rw [List.filter_eq_nil_iff]
          intro r hr
          simp only [beq_iff_eq]
          intro he
          exact htp (he ▸ List.mem_map.2 ⟨r, hr, rfl⟩)
        rw [hf0, List.nil_append]
        rfl

lemma inv_fold (records : List (Nat × String × Int)) :
    ∀ (processed : List (Nat × String × Int)) (bt : ByTime), Inv processed bt →
      Inv (processed ++ records)
        (records.foldl (fun bt r => addRecord bt r.1 r.2.1 r.2.2) bt) := by
  induction records with
  | nil => intro processed bt h; simpa using h
  | cons r rest ih =>
    intro processed bt h
    have h1 := inv_step processed bt h r.1 r.2.1 r.2.2
    have h2 := ih (processed ++ [(r.1, r.2.1, r.2.2)]) (addRecord bt r.1 r.2.1 r.2.2) h1
    simpa [List.append_assoc] using h2

lemma inv_buildByTime (records : List (Nat × String × Int)) :
    Inv records (buildByTime records) := by
  have h := inv_fold records [] [] inv_nil
  simpa [buildByTime] using h

lemma buildByTimeE_ok (records : List (Nat × String × Int)) :
    ∀ bt : ByTime,
      List.foldlM (fun bt (r : Option Nat × String × Int) =>
          match r.1 with
          | some t => Except.ok (addRecord bt t r.2.1 r.2.2)
          | none => Except.error "AttributeError: timestamp cannot be parsed")
        bt (records.map (fun r => ((some r.1 : Option Nat), r.2.1, r.2.2)))
      = Except.ok (records.foldl (fun bt r => addRecord bt r.1 r.2.1 r.2.2) bt) := by
  induction records with
  | nil => intro bt; rfl
  | cons r rest ih =>
    intro bt
    rw [List.map_cons, List.foldlM_cons]
    exact ih (addRecord bt r.1 r.2.1 r.2.2)

lemma foldlME_error (records : List (Option Nat × String × Int)) :
    ∀ bt : ByTime, (∃ r ∈ records, r.1 = none) →
      ∃ e, List.foldlM (fun bt (r : Option Nat × String × Int) =>
          match r.1 with
          | some t => Except.ok (addRecord bt t r.2.1 r.2.2)
          | none => Except.error "AttributeError: timestamp cannot be parsed")
        bt records = Except.error e := by
  induction records with
  | nil =>
    intro bt h
    obtain ⟨r, hr, _⟩ := h
    exact absurd hr (List.not_mem_nil r)
  | cons r rest ih =>
    intro bt h
    rcases hr : r.1 with _ | t
    · refine ⟨"AttributeError: timestamp cannot be parsed", ?_⟩
      rw [List.foldlM_cons]
      obtain ⟨t0, f0, v0⟩ := r
      simp only at hr
      subst hr
      rfl
    · obtain ⟨q, hq, hq1⟩ := h
      rcases List.mem_cons.1 hq with he | hm
      · rw [he, hr] at hq1
        cases hq1
      · obtain ⟨e, he⟩ := ih (addRecord bt t r.2.1 r.2.2) ⟨q, hm, hq1⟩
        refine ⟨e, ?_⟩
        rw [List.foldlM_cons]
        obtain ⟨t0, f0, v0⟩ := r
        simp only at hr
        subst hr
        exact he

/-! ### Predictor: `Robustel EG5120 ML/predictor.py` -/

/-- Python exception kinds raised by `predictor.py`, with their messages. -/
inductive PyError where
  | fileNotFound (msg : String)
  | valueError (msg : String)
  | keyError (msg : String)
  | indexError (msg : String)
deriving DecidableEq

/-- Python `type(e).__name__` for the exceptions above. -/
def PyError.typeName : PyError → String
  | .fileNotFound _ => "FileNotFoundError"
  | .valueError _ => "ValueError"
  | .keyError _ => "KeyError"
  | .indexError _ => "IndexError"

/-- Python `str(e)` for the exceptions above. -/
def PyError.message : PyError → String
  | .fileNotFound m => m
  | .valueError m => m
  | .keyError m => m
  | .indexError m => m

/-- The `"scaler"` object of `preprocess.json`. -/
structure ScalerDoc where
  mean : List ℚ
  std : List ℚ
deriving DecidableEq

/-- The parsed `preprocess.json` document: `features` may be absent
(`pp.get` with a default), `scaler` and `labels` are accessed with `pp[...]`
and raise `KeyError` when absent. -/
structure PreprocessDoc where
  features : Option (List String)
  scaler : Option ScalerDoc
  labels : Option (List String)
deriving DecidableEq

/-- `load_preprocess`: read features (defaulted), scaler mean/std, labels,
then check `len(features) == len(mean) == len(std)`. -/
def load_preprocess (pp : PreprocessDoc) :
    Except PyError (List String × List ℚ × List ℚ × List String) :=
  match pp.scaler with
  | none => Except.error (PyError.keyError "scaler")
  | some sc =>
    match pp.labels with
    | none => Except.error (PyError.keyError "labels")
    | some lbls =>
      if (pp.features.getD ["temperature", "humidity", "pressure"]).length ≠ sc.mean.length ∨
          (pp.features.getD ["temperature", "humidity", "pressure"]).length ≠ sc.std.length then
        Except.error (PyError.valueError
          ("Preprocess mismatch: features=" ++
            toString (pp.features.getD ["temperature", "humidity", "pressure"]).length ++
            ", mean=" ++ toString sc.mean.length ++ ", std=" ++ toString sc.std.length))
      else Except.ok (pp.features.getD ["temperature", "humidity", "pressure"],
        sc.mean, sc.std, lbls)

/-- The startup file checks of `main` followed by `load_preprocess`:
`os.path.exists` on `preprocess.json` and `weather_model.tflite`. -/
def mainLoad (ppExists mdlExists : Bool) (doc : PreprocessDoc) :
    Except PyError (List String × List ℚ × List ℚ × List String) :=
  if ¬ ppExists then
    Except.error (PyError.fileNotFound "preprocess.json not found")
  else if ¬ mdlExists then
    Except.error (PyError.fileNotFound "weather_model.tflite not found")
  else load_preprocess doc

/-- A raw JSON payload: keys mapped to numbers or `null` (`none` in the
value position models Python `None`; an absent key is an absent list
entry). -/
abbrev Payload := List (String × Option ℚ)

/-- Python `payload["pressure"] = p / 1000.0`: replace the value of the
first matching key in place, appending when absent. -/
def setKey (payload : Payload) (k : String) (v : Option ℚ) : Payload :=
  match payload with
  | [] => [(k, v)]
  | p :: rest => if p.1 == k then (p.1, v) :: rest else p :: setKey rest k v

/-- `normalize_units`: if a non-null pressure exceeds `PA_THRESHOLD = 2000`
divide it by 1000, otherwise leave the payload untouched. -/
def normalize_units (payload : Payload) : Payload :=
  match payload.lookup "pressure" with
  | some (some p) => if p > 2000 then setKey payload "pressure" (some (p / 1000)) else payload
  | _ => payload

/-- `build_input_vector`: read each declared feature in order, raising
`ValueError` on the first feature that is absent or null. -/
def build_input_vector (payload : Payload) : List String → Except PyError (List ℚ)
  | [] => Except.ok []
  | f :: fs =>
    match payload.lookup f with
    | some (some v) => (build_input_vector payload fs).map (fun xs => v :: xs)
    | some none => Except.error (PyError.valueError ("Missing or null feature: " ++ f))
    | none => Except.error (PyError.valueError ("Missing or null feature: " ++ f))

/-- The standardization line `x = (x - mean) / std`, elementwise. -/
def standardize : List ℚ → List ℚ → List ℚ → List ℚ
  | x :: xs, m :: ms, s :: ss => (x - m) / s :: standardize xs ms ss
  | _, _, _ => []

/-- The running state of `np.argmax`'s first-max scan: position `i` in the
list, best index `bi` and best value `bv` so far. -/
def argmaxAux : List ℚ → Nat → Nat → ℚ → Nat
  | [], _, bi, _ => bi
  | v :: rest, i, bi, bv =>
    if bv < v then argmaxAux rest (i + 1) i v
    else argmaxAux rest (i + 1) bi bv

/-- `int(np.argmax(probs))`: index of the first maximal element. -/
def npArgmax : List ℚ → Nat
  | [] => 0
  | v :: rest => argmaxAux rest 1 0 v

/-- Lines 90-97 of `main`: take the argmax of the probabilities, report
`labels[idx]` (an out-of-range index raises `IndexError`; `np.argmax` of an
empty array raises `ValueError`) and `float(probs[idx])`. -/
def classifyStep (probs : List ℚ) (labels : List String) : Except PyError (String × ℚ) :=
  if probs.isEmpty then
    Except.error (PyError.valueError "attempt to get argmax of an empty sequence")
  else
    match labels[npArgmax probs]? with
    | some lbl => Except.ok (lbl, probs.getD (npArgmax probs) 0)
    | none => Except.error (PyError.indexError "list index out of range")

/-- The whole `main` pipeline, with the classifier artifact abstracted as a
function `model` from the standardized vector to the output distribution. -/
def runMain (ppExists mdlExists : Bool) (doc : PreprocessDoc) (payload : Payload)
    (model : List ℚ → List ℚ) : Except PyError (String × ℚ) := do
  let (features, mean, std, labels) ← mainLoad ppExists mdlExists doc
  let payload := normalize_units payload
  let x ← build_input_vector payload features
  let x := standardize x mean std
  let probs := model x
  classifyStep probs labels

/-- A JSON scalar appearing in the program's output objects. -/
inductive JVal where
  | str (s : String)
  | num (q : ℚ)
deriving DecidableEq

/-- The success object `{"prediction": ..., "confidence": ...}` printed by
`main`. -/
def resultJson (label : String) (conf : ℚ) : List (String × JVal) :=
  [("prediction", JVal.str label), ("confidence", JVal.num conf)]

/-- The error object `{"error": str(e), "type": type(e).__name__}` printed
by the `__main__` handler. -/
def errorJson (e : PyError) : List (String × JVal) :=
  [("error", JVal.str e.message), ("type", JVal.str e.typeName)]

/-- Observable outcome of one process run: what is printed on stdout and
stderr, and the exit code. -/
structure ProcOutput where
  stdout : Option (List (String × JVal))
  stderr : Option (List (String × JVal))
  exitCode : Nat
deriving DecidableEq

/-- The `__main__` wrapper: on success print the result object and exit 0;
on any exception print the error object to stderr and `sys.exit(1)`. -/
def entryPoint (r : Except PyError (String × ℚ)) : ProcOutput :=
  match r with
  | Except.ok (label, conf) => ⟨some (resultJson label conf), none, 0⟩
  | Except.error e => ⟨none, some (errorJson e), 1⟩

/-! ### Confidence verbalizer: `_confidence_to_verbal` in `app/routes/rag.py` -/

/-- `_confidence_to_verbal`: bucket a confidence percentage into one of six
verbal tiers, per language (any language other than `"it"` uses the English
wording). -/
def confidence_to_verbal (confidence : ℚ) (language : String) : String :=
  if language == "it" then
    if 90 ≤ confidence then "quasi certamente"
    else if 80 ≤ confidence then "molto probabilmente"
    else if 70 ≤ confidence then "probabilmente"
    else if 60 ≤ confidence then "abbastanza probabilmente"
    else if 50 ≤ confidence then "forse"
    else "potrebbe essere"
  else
    if 90 ≤ confidence then "almost certainly"
    else if 80 ≤ confidence then "very likely"
    else if 70 ≤ confidence then "likely"
    else if 60 ≤ confidence then "probably"
    else if 50 ≤ confidence then "possibly"
    else "might be"

/-! ### Feature-vector construction lemmas -/

lemma exceptMap_eq_ok {α β γ : Type} (g : α → β) (x : Except γ α) (b : β) :
    x.map g = Except.ok b ↔ ∃ a, x = Except.ok a ∧ g a = b := by
  cases x <;> simp [Except.map]

lemma exceptMap_eq_error {α β γ : Type} (g : α → β) (x : Except γ α) (e : γ) :
    x.map g = Except.error e ↔ x = Except.error e := by
  cases x <;> simp [Except.map]

lemma biv_ok_shape (payload : Payload) :
    ∀ (features : List String) (xs : List ℚ),
      build_input_vector payload features = Except.ok xs →
      xs.length = features.length ∧
      ∀ i, i < features.length →
        payload.lookup (features.getD i "") = some (some (xs.getD i 0)) := by
  intro features
  induction features with
  | nil =>
    intro xs h
    cases h
    exact ⟨rfl, fun i hi => absurd hi (Nat.not_lt_zero i)⟩
  | cons f fs ih =>
    intro xs h
    simp only [build_input_vector] at h
    split at h
    · rename_i v hl
      rw [exceptMap_eq_ok] at h
      obtain ⟨ys, hys, hcons⟩ := h
      obtain ⟨hlen, hidx⟩ := ih ys hys
      subst hcons
      refine ⟨by simp [hlen], ?_⟩
      intro i hi
      cases i with
      | zero => simpa using hl
      | succ j =>
        have hj : j < fs.length := by simpa using hi
        simpa using hidx j hj
    · cases h
    · cases h

lemma biv_ok_of_present (payload : Payload) :
    ∀ features : List String,
      (∀ f ∈ features, ∃ v, payload.lookup f = some (some v)) →
      ∃ xs, build_input_vector payload features = Except.ok xs := by
  intro features
  induction features with
  | nil => intro _; exact ⟨[], rfl⟩
  | cons f fs ih =>
    intro h
    obtain ⟨v, hv⟩ := h f (List.mem_cons_self f fs)
    obtain ⟨ys, hys⟩ := ih (fun g hg => h g (List.mem_cons_of_mem f hg))
    refine ⟨v :: ys, ?_⟩
    simp only [build_input_vector, hv, hys]
    rfl

lemma biv_error_names (payload : Payload) :
    ∀ (features : List String) (e : PyError),
      build_input_vector payload features = Except.error e →
      ∃ f, f ∈ features ∧
        (payload.lookup f = none ∨ payload.lookup f = some none) ∧
        e = PyError.valueError ("Missing or null feature: " ++ f) := by
  intro features
  induction features with
  | nil => intro e h; cases h
  | cons f fs ih =>
    intro e h
    simp only [build_input_vector] at h
    split at h
    · rename_i v hl
      rw [exceptMap_eq_error] at h
      obtain ⟨g, hg, hbad, he⟩ := ih e h
      exact ⟨g, List.mem_cons_of_mem f hg, hbad, he⟩
    · rename_i hl
      cases h
      exact ⟨f, List.mem_cons_self f fs, Or.inr hl, rfl⟩
    · rename_i hl
      cases h
      exact ⟨f, List.mem_cons_self f fs, Or.inl hl, rfl⟩

lemma biv_depends_only_on_features (payload payload2 : Payload) :
    ∀ features : List String,
      (∀ f ∈ features, payload2.lookup f = payload.lookup f) →
      build_input_vector payload2 features = build_input_vector payload features := by
  intro features
  induction features with
  | nil => intro _; rfl
  | cons f fs ih =>
    intro h
    have hf := h f (List.mem_cons_self f fs)
    have hrest := ih (fun g hg => h g (List.mem_cons_of_mem f hg))
    simp only [build_input_vector, hf, hrest]

lemma lookup_setKey_self (k : String) (v : Option ℚ) :
    ∀ payload : Payload, (setKey payload k v).lookup k = some v := by
  intro payload
  induction payload with
  | nil => simp [setKey, List.lookup]
  | cons q rest ih =>
    by_cases h : q.1 = k
    · simp [setKey, h, List.lookup]
    · have hb : (q.1 == k) = false := by simpa using h
      simp only [setKey, hb, if_false, Bool.false_eq_true]
      rw [List.lookup]
      have hb2 : (k == q.1) = false := by simpa using fun he => h he.symm
      rw [hb2]
      exact ih

lemma lookup_setKey_other (k : String) (v : Option ℚ) (f : String) (hf : f ≠ k) :
    ∀ payload : Payload, (setKey payload k v).lookup f = payload.lookup f := by
  intro payload
  induction payload with
  | nil =>
    simp only [setKey, List.lookup]
    rw [show (f == k) = false by simpa using hf]
  | cons q rest ih =>
    by_cases h : q.1 = k
    · simp only [setKey, h, beq_self_eq_true, if_true]
      rw [List.lookup, List.lookup, h]
      rw [show (f == k) = false by simpa using hf]
    · have hb : (q.1 == k) = false := by simpa using h
      simp only [setKey, hb, Bool.false_eq_true, if_false]
      rw [List.lookup, List.lookup]
      cases hq : (f == q.1) with
      | true => rfl
      | false => exact ih

lemma normalize_units_eq_of_lookup (payload : Payload) (p : ℚ)
    (hp : payload.lookup "pressure" = some (some p)) :
    normalize_units payload =
      if 2000 < p then setKey payload "pressure" (some (p / 1000)) else payload := by
  rw [normalize_units, hp]

lemma standardize_shape :
    ∀ (raw mean scale : List ℚ), raw.length = mean.length → mean.length = scale.length →
      (standardize raw mean scale).length = raw.length ∧
      ∀ i, i < raw.length →
        (standardize raw mean scale).getD i 0 =
          (raw.getD i 0 - mean.getD i 0) / scale.getD i 0 := by
  intro raw
  induction raw with
  | nil =>
    intro mean scale _ _
    exact ⟨rfl, fun i hi => absurd hi (Nat.not_lt_zero i)⟩
  | cons x xs ih =>
    intro mean scale h1 h2
    cases mean with
    | nil => cases h1
    | cons m ms =>
      cases scale with
      | nil => cases h2
      | cons s ss =>
        have h1' : xs.length = ms.length := by simpa using h1
        have h2' : ms.length = ss.length := by simpa using h2
        obtain ⟨hlen, hidx⟩ := ih ms ss h1' h2'
        refine ⟨by simpa [standardize] using hlen, ?_⟩
        intro i hi
        cases i with
        | zero => simp [standardize]
        | succ j =>
          have hj : j < xs.length := by simpa using hi
          simpa [standardize] using hidx j hj

lemma argmaxAux_spec :
    ∀ (rest full : List ℚ) (i bi : Nat) (bv : ℚ),
      bi < full.length → bi < i → full.getD bi 0 = bv →
      full.length = i + rest.length →
      (∀ k, k < rest.length → full.getD (i + k) 0 = rest.getD k 0) →
      (∀ j, j < i → full.getD j 0 ≤ bv) →
      (∀ j, j < bi → full.getD j 0 < bv) →
      argmaxAux rest i bi bv < full.length ∧
      (∀ j, j < full.length → full.getD j 0 ≤ full.getD (argmaxAux rest i bi bv) 0) ∧
      (∀ j, j < full.length →
        full.getD j 0 = full.getD (argmaxAux rest i bi bv) 0 → argmaxAux rest i bi bv ≤ j) := by
  intro rest
  induction rest with
  | nil =>
    intro full i bi bv hbi hbii hbv hlen hsuf hmax hfirst
    rw [argmaxAux]
    have hfl : full.length = i := by simpa using hlen
    refine ⟨hbi, ?_, ?_⟩
    · intro j hj
      rw [hbv]
      exact hmax j (by omega)
    · intro j hj hje
      by_contra hc
      have hjbi : j < bi := by omega
      have := hfirst j hjbi
      rw [← hbv, ← hje] at this
      exact lt_irrefl _ this
  | cons v r ih =>
    intro full i bi bv hbi hbii hbv hlen hsuf hmax hfirst
    have hiv : full.getD i 0 = v := by simpa using hsuf 0 (by simp)
    have hsuf' : ∀ k, k < r.length → full.getD (i + 1 + k) 0 = r.getD k 0 := by
      intro k hk
      have h1 : i + 1 + k = i + (k + 1) := by omega
      rw [h1]
      simpa using hsuf (k + 1) (by simpa using Nat.succ_lt_succ hk)
    have hlen' : full.length = (i + 1) + r.length := by
      simp only [List.length_cons] at hlen
      omega
    rw [argmaxAux]
    by_cases hlt : bv < v
    · rw [if_pos hlt]
      refine ih full (i + 1) i v (by omega) (by omega) hiv hlen' hsuf' ?_ ?_
      · intro j hj
        rcases Nat.lt_or_ge j i with hji | hji
        · exact le_of_lt (lt_of_le_of_lt (hmax j hji) hlt)
        · have : j = i := by omega
          rw [this, hiv]
      · intro j hj
        exact lt_of_le_of_lt (hmax j hj) hlt
    · rw [if_neg hlt]
      refine ih full (i + 1) bi bv (by omega) (by omega) hbv hlen' hsuf' ?_ hfirst
      intro j hj
      rcases Nat.lt_or_ge j i with hji | hji
      · exact hmax j hji
      · have : j = i := by omega
        rw [this, hiv]
        exact le_of_not_lt hlt

lemma npArgmax_spec (probs : List ℚ) (h : probs ≠ []) :
    npArgmax probs < probs.length ∧
    (∀ j, j < probs.length → probs.getD j 0 ≤ probs.getD (npArgmax probs) 0) ∧
    (∀ j, j < probs.length →
      probs.getD j 0 = probs.getD (npArgmax probs) 0 → npArgmax probs ≤ j) := by
  cases probs with
  | nil => exact absurd rfl h
  | cons v rest =>
    rw [npArgmax]
    refine argmaxAux_spec rest (v :: rest) 1 0 v (by simp) (by omega) (by simp)
      (by simp [Nat.add_comm]) ?_ ?_ ?_
    · intro k hk
      have h1 : 1 + k = k + 1 := Nat.add_comm 1 k
      rw [h1]
      simp
    · intro j hj
      have : j = 0 := by omega
      rw [this]
      simp
    · intro j hj
      exact absurd hj (Nat.not_lt_zero j)

/-! ### Claim theorems -/

/-- C1: for every sequence of narrow (timestamp, field, value) records the
pivot is ordered non-decreasing by timestamp, each emitted observation
holds exactly the last-write-wins merge of the records sharing its
timestamp, the emitted timestamps are exactly the record timestamps (each
once), and the concrete example `[(2,a,1),(1,b,2),(1,a,3)]` pivots to
`[{t=1, a=3, b=2}, {t=2, a=1}]`. -/
theorem pivot_orders_and_merges :
    (∀ records : List (Nat × String × Int),
      (pivot records).Sorted tsLE ∧
      (∀ p ∈ pivot records, p.2 = lastWins (records.filter (fun r => r.1 == p.1))) ∧
      (∀ t : Nat, t ∈ (pivot records).map (fun p => p.1) ↔ t ∈ records.map (fun r => r.1)) ∧
      (keysOf (pivot records)).Nodup) ∧
    (pivot [(2, "a", 1), (1, "b", 2), (1, "a", 3)]).map
        (fun p => (p.1, p.2.lookup "a", p.2.lookup "b")) =
      [(1, some 3, some 2), (2, some 1, none)] := by
  constructor
  · intro records
    obtain ⟨hnd, hmem, hval⟩ := inv_buildByTime records
    have hperm := List.perm_insertionSort tsLE (buildByTime records)
    refine ⟨List.sorted_insertionSort tsLE _, ?_, ?_, ?_⟩
    · intro p hp
      exact hval p ((List.mem_insertionSort tsLE).1 hp)
    · intro t
      rw [← hmem t]
      constructor
      · intro h
        obtain ⟨p, hp, he⟩ := List.mem_map.1 h
        exact List.mem_map.2 ⟨p, (List.mem_insertionSort tsLE).1 hp, he⟩
      · intro h
        obtain ⟨p, hp, he⟩ := List.mem_map.1 h
        exact List.mem_map.2 ⟨p, (List.mem_insertionSort tsLE).2 hp, he⟩
    · have hpm : List.Perm (keysOf (pivot records)) (keysOf (buildByTime records)) := by
        unfold keysOf pivot
        exact hperm.map (fun p => p.1)
      exact hpm.nodup_iff.2 hnd
  · decide

/-- C1 witness: the general part of `pivot_orders_and_merges` evaluated on
the example batch and on its member observation for timestamp 1. -/
theorem pivot_orders_and_merges_witness :
    (pivot [(2, "a", 1), (1, "b", 2), (1, "a", 3)]).Sorted tsLE ∧
    ((1, [("b", 2), ("a", 3)]) : Nat × FieldMap).2 =
      lastWins (List.filter (fun r => r.1 == 1) [(2, "a", 1), (1, "b", 2), (1, "a", 3)]) :=
  ⟨(pivot_orders_and_merges.1 _).1,
    (pivot_orders_and_merges.1 _).2.1 (1, [("b", 2), ("a", 3)]) (by decide)⟩

/-- C9 counterexample: a batch holding one record with a malformed
timestamp does not pivot successfully, while the batch with that record
removed does, so the claimed skip-with-warning behaviour is absent. -/
theorem pivot_malformed_counterexample :
    pivotE [((none : Option Nat), "a", (1 : Int))] =
      Except.error "AttributeError: timestamp cannot be parsed" ∧
    pivotE ([] : List (Option Nat × String × Int)) = Except.ok [] ∧
    pivotE [((none : Option Nat), "a", (1 : Int))] ≠
      pivotE ([] : List (Option Nat × String × Int)) := by
  refine ⟨rfl, rfl, fun h => ?_⟩
  rw [show pivotE [((none : Option Nat), "a", (1 : Int))] =
        Except.error "AttributeError: timestamp cannot be parsed" from rfl,
      show pivotE ([] : List (Option Nat × String × Int)) = Except.ok [] from rfl] at h
  exact Except.noConfusion h

/-- C9 (amended): a record with a malformed timestamp is not skipped;
whenever any record of the batch has a malformed timestamp the whole pivot
run fails with an error, and a batch with no malformed timestamps pivots to
the usual result. -/
theorem pivot_malformed_aborts :
    (∀ records : List (Option Nat × String × Int), (∃ r ∈ records, r.1 = none) →
      ∃ e, pivotE records = Except.error e) ∧
    (∀ records : List (Nat × String × Int),
      pivotE (records.map (fun r => ((some r.1 : Option Nat), r.2.1, r.2.2)))
        = Except.ok (pivot records)) := by
  constructor
  · intro records h
    obtain ⟨e, he⟩ := foldlME_error records [] h
    refine ⟨e, ?_⟩
    rw [pivotE, buildByTimeE, he]
    rfl
  · intro records
    rw [pivotE, buildByTimeE, buildByTimeE_ok records []]
    rfl

/-- C9 witness: the amended theorem applied to a concrete batch with one
malformed record, and to a concrete fully valid batch. -/
theorem pivot_malformed_aborts_witness :
    (∃ e, pivotE [((some 1 : Option Nat), "a", (5 : Int)), (none, "b", 6)] =
      Except.error e) ∧
    pivotE [((some 1 : Option Nat), "a", (5 : Int))] =
      Except.ok (pivot [(1, "a", 5)]) :=
  ⟨pivot_malformed_aborts.1 _ ⟨((none : Option Nat), "b", (6 : Int)), by decide, rfl⟩,
    pivot_malformed_aborts.2 [(1, "a", 5)]⟩

/-- C2: feature-vector construction succeeds exactly when every declared
feature is present and non-null; on success the vector has the declared
length and follows the descriptor's feature ordering; on failure the
`ValueError` names the offending feature; and the result depends only on
the lookups of the declared features, so extra keys have no effect. -/
theorem build_vector_spec (payload : Payload) (features : List String) :
    ((∃ xs, build_input_vector payload features = Except.ok xs) ↔
      ∀ f ∈ features, ∃ v, payload.lookup f = some (some v)) ∧
    (∀ xs, build_input_vector payload features = Except.ok xs →
      xs.length = features.length ∧
      ∀ i, i < features.length →
        payload.lookup (features.getD i "") = some (some (xs.getD i 0))) ∧
    (∀ e, build_input_vector payload features = Except.error e →
      ∃ f, f ∈ features ∧
        (payload.lookup f = none ∨ payload.lookup f = some none) ∧
        e = PyError.valueError ("Missing or null feature: " ++ f)) ∧
    (∀ payload2 : Payload, (∀ f ∈ features, payload2.lookup f = payload.lookup f) →
      build_input_vector payload2 features = build_input_vector payload features) := by
  refine ⟨⟨?_, biv_ok_of_present payload features⟩, biv_ok_shape payload features,
    biv_error_names payload features,
    fun payload2 => biv_depends_only_on_features payload payload2 features⟩
  rintro ⟨xs, hxs⟩ f hf
  obtain ⟨hlen, hidx⟩ := biv_ok_shape payload features xs hxs
  obtain ⟨i, hi, he⟩ := List.mem_iff_getElem.1 hf
  refine ⟨xs.getD i 0, ?_⟩
  have := hidx i hi
  rwa [List.getD_eq_getElem _ _ hi, he] at this

/-- C2 witness: the shape part of `build_vector_spec` on a concrete payload
with an extra key. -/
theorem build_vector_spec_witness :
    (([25, 60] : List ℚ).length = (["temperature", "humidity"] : List String).length) ∧
    (∀ i, i < (["temperature", "humidity"] : List String).length →
      ([("temperature", some (25 : ℚ)), ("humidity", some 60), ("extra", some 1)] : Payload).lookup
          ((["temperature", "humidity"] : List String).getD i "") =
        some (some (([25, 60] : List ℚ).getD i 0))) :=
  (build_vector_spec [("temperature", some 25), ("humidity", some 60), ("extra", some 1)]
    ["temperature", "humidity"]).2.1 [25, 60] rfl

/-- C3: unit normalization divides a non-null pressure by 1000 exactly when
it exceeds 2000 and otherwise returns the payload unchanged; no key other
than pressure is ever touched; 101325 becomes 101.325 and 101.3 stays. -/
theorem normalize_units_spec :
    (∀ (payload : Payload) (p : ℚ), payload.lookup "pressure" = some (some p) →
      (normalize_units payload).lookup "pressure" =
        some (some (if 2000 < p then p / 1000 else p)) ∧
      (¬ 2000 < p → normalize_units payload = payload)) ∧
    (∀ (payload : Payload) (f : String), f ≠ "pressure" →
      (normalize_units payload).lookup f = payload.lookup f) ∧
    normalize_units [("pressure", some 101325)] = [("pressure", some (101325 / 1000))] ∧
    normalize_units [("pressure", some (1013 / 10))] = [("pressure", some (1013 / 10))] := by
  refine ⟨?_, ?_, ?_, ?_⟩
  · intro payload p hp
    rw [normalize_units_eq_of_lookup payload p hp]
    by_cases h : 2000 < p
    · rw [if_pos h, if_pos h]
      exact ⟨lookup_setKey_self "pressure" (some (p / 1000)) payload, fun hc => absurd h hc⟩
    · rw [if_neg h, if_neg h]
      exact ⟨hp, fun _ => rfl⟩
  · intro payload f hf
    rcases hl : payload.lookup "pressure" with _ | ov
    · rw [normalize_units, hl]
    · rcases ov with _ | p
      · rw [normalize_units, hl]
      · rw [normalize_units_eq_of_lookup payload p hl]
        by_cases h : 2000 < p
        · rw [if_pos h]
          exact lookup_setKey_other "pressure" (some (p / 1000)) f hf payload
        · rw [if_neg h]
  · norm_num [normalize_units, List.lookup, setKey]
  · norm_num [normalize_units, List.lookup]

/-- C3 witness: `normalize_units_spec` applied to a payload with an
above-threshold pressure and a temperature key. -/
theorem normalize_units_spec_witness :
    (normalize_units [("temperature", some 25), ("pressure", some 101325)]).lookup "pressure" =
      some (some (if (2000 : ℚ) < 101325 then (101325 : ℚ) / 1000 else 101325)) ∧
    (normalize_units [("temperature", some 25), ("pressure", some 101325)]).lookup "temperature" =
      ([("temperature", some 25), ("pressure", some 101325)] : Payload).lookup "temperature" :=
  ⟨(normalize_units_spec.1 [("temperature", some 25), ("pressure", some 101325)] 101325 rfl).1,
    normalize_units_spec.2.1 [("temperature", some 25), ("pressure", some 101325)]
      "temperature" (by decide)⟩

/-- C4: the standardized vector has at each position the value
`(raw[i] - mean[i]) / scale[i]`; with mean 10 and scale 2 the raw value 14
standardizes to 2 and the raw value 10 to 0. -/
theorem standardize_spec :
    (∀ (raw mean scale : List ℚ), raw.length = mean.length → mean.length = scale.length →
      (standardize raw mean scale).length = raw.length ∧
      ∀ i, i < raw.length →
        (standardize raw mean scale).getD i 0 =
          (raw.getD i 0 - mean.getD i 0) / scale.getD i 0) ∧
    standardize [14] [10] [2] = [2] ∧
    standardize [10] [10] [2] = [0] := by
  refine ⟨standardize_shape, ?_, ?_⟩ <;> norm_num [standardize]

/-- C4 witness: the general part of `standardize_spec` at the concrete
mean-10, scale-2 example. -/
theorem standardize_spec_witness :
    (standardize [14] [10] [2]).length = ([14] : List ℚ).length ∧
    ∀ i, i < ([14] : List ℚ).length →
      (standardize [14] [10] [2]).getD i 0 =
        (([14] : List ℚ).getD i 0 - ([10] : List ℚ).getD i 0) / ([2] : List ℚ).getD i 0 :=
  standardize_spec.1 [14] [10] [2] rfl rfl

/-- C5: classification reports the first maximal class of the output
distribution (argmax with ties broken by lowest index) together with exactly
that class's probability, and on `[0.2, 0.5, 0.3]` over
`["rain", "clear", "cloudy"]` it yields `("clear", 0.5)`; being a function
of the distribution, the result is identical on every invocation. -/
theorem classify_argmax_spec :
    (∀ (probs : List ℚ) (labels : List String), probs ≠ [] →
      probs.length = labels.length →
      classifyStep probs labels =
        Except.ok (labels.getD (npArgmax probs) "", probs.getD (npArgmax probs) 0) ∧
      (∀ j, j < probs.length → probs.getD j 0 ≤ probs.getD (npArgmax probs) 0) ∧
      (∀ j, j < probs.length →
        probs.getD j 0 = probs.getD (npArgmax probs) 0 → npArgmax probs ≤ j)) ∧
    classifyStep [1/5, 1/2, 3/10] ["rain", "clear", "cloudy"] = Except.ok ("clear", 1/2) := by
  constructor
  · intro probs labels hne hlen
    obtain ⟨hlt, hmax, hfirst⟩ := npArgmax_spec probs hne
    have hll : npArgmax probs < labels.length := hlen ▸ hlt
    have hempty : ¬ probs.isEmpty = true := by
      simpa [List.isEmpty_iff] using hne
    refine ⟨?_, hmax, hfirst⟩
    rw [classifyStep, if_neg hempty, List.getElem?_eq_getElem hll,
      List.getD_eq_getElem labels "" hll]
  · norm_num [classifyStep, npArgmax, argmaxAux]

/-- C5 witness: the general part of `classify_argmax_spec` at the concrete
distribution of the claim. -/
theorem classify_argmax_spec_witness :
    classifyStep [1/5, 1/2, 3/10] ["rain", "clear", "cloudy"] =
      Except.ok ((["rain", "clear", "cloudy"] : List String).getD
          (npArgmax [1/5, 1/2, 3/10]) "",
        ([1/5, 1/2, 3/10] : List ℚ).getD (npArgmax [1/5, 1/2, 3/10]) 0) ∧
    (∀ j, j < ([1/5, 1/2, 3/10] : List ℚ).length →
      ([1/5, 1/2, 3/10] : List ℚ).getD j 0 ≤
        ([1/5, 1/2, 3/10] : List ℚ).getD (npArgmax [1/5, 1/2, 3/10]) 0) ∧
    (∀ j, j < ([1/5, 1/2, 3/10] : List ℚ).length →
      ([1/5, 1/2, 3/10] : List ℚ).getD j 0 =
        ([1/5, 1/2, 3/10] : List ℚ).getD (npArgmax [1/5, 1/2, 3/10]) 0 →
      npArgmax [1/5, 1/2, 3/10] ≤ j) :=
  classify_argmax_spec.1 [1/5, 1/2, 3/10] ["rain", "clear", "cloudy"]
    (List.cons_ne_nil _ _) rfl

/-- Unfolding of the verbalizer for a non-Italian locale. -/
lemma confidence_to_verbal_en (c : ℚ) :
    confidence_to_verbal c "en" =
      if 90 ≤ c then "almost certainly"
      else if 80 ≤ c then "very likely"
      else if 70 ≤ c then "likely"
      else if 60 ≤ c then "probably"
      else if 50 ≤ c then "possibly"
      else "might be" := by
  rw [confidence_to_verbal, if_neg (by decide)]

/-- C6 counterexample: the verbalizer buckets on a 0-100 percentage scale,
so the confidence 0.90 lands in the lowest tier ("might be", the uncertain
wording), not in the almost-certain tier as the claim states. -/
theorem confidence_tiers_counterexample :
    confidence_to_verbal (9/10) "en" = "might be" ∧
    confidence_to_verbal (9/10) "en" ≠ "almost certainly" := by
  have h : confidence_to_verbal (9/10) "en" = "might be" := by
    rw [confidence_to_verbal_en]
    norm_num
  exact ⟨h, by rw [h]; decide⟩

/-- C6 (amended): verbalization is total and buckets the confidence by the
fixed thresholds 90, 80, 70, 60, 50 on a 0-100 percentage scale (each tier's
lower bound inclusive); 90 maps to the almost-certain tier, 89.99 to "very
likely", and 0 and 100 both map to defined tiers. -/
theorem confidence_tiers :
    (∀ c : ℚ,
      (confidence_to_verbal c "en" = "almost certainly" ↔ 90 ≤ c) ∧
      (confidence_to_verbal c "en" = "very likely" ↔ 80 ≤ c ∧ c < 90) ∧
      (confidence_to_verbal c "en" = "likely" ↔ 70 ≤ c ∧ c < 80) ∧
      (confidence_to_verbal c "en" = "probably" ↔ 60 ≤ c ∧ c < 70) ∧
      (confidence_to_verbal c "en" = "possibly" ↔ 50 ≤ c ∧ c < 60) ∧
      (confidence_to_verbal c "en" = "might be" ↔ c < 50) ∧
      confidence_to_verbal c "en" ∈ ["almost certainly", "very likely", "likely",
        "probably", "possibly", "might be"]) ∧
    confidence_to_verbal 90 "en" = "almost certainly" ∧
    confidence_to_verbal (8999/100) "en" = "very likely" ∧
    confidence_to_verbal 0 "en" = "might be" ∧
    confidence_to_verbal 100 "en" = "almost certainly" := by
  refine ⟨fun c => ?_, by rw [confidence_to_verbal_en]; norm_num,
    by rw [confidence_to_verbal_en]; norm_num,
    by rw [confidence_to_verbal_en]; norm_num,
    by rw [confidence_to_verbal_en]; norm_num⟩
  rw [confidence_to_verbal_en]
  split_ifs with h1 h2 h3 h4 h5 <;>
    refine ⟨⟨fun hs => ?_, fun hc => ?_⟩, ⟨fun hs => ?_, fun hc => ?_⟩,
      ⟨fun hs => ?_, fun hc => ?_⟩, ⟨fun hs => ?_, fun hc => ?_⟩,
      ⟨fun hs => ?_, fun hc => ?_⟩, ⟨fun hs => ?_, fun hc => ?_⟩, by simp⟩ <;>
    first
      | rfl
      | assumption
      | (exact absurd hs (by decide))
      | linarith
      | (constructor <;> linarith)

/-- C6 witness: the amended bucketing applied at the boundary value 90. -/
theorem confidence_tiers_witness :
    confidence_to_verbal 90 "en" = "almost certainly" :=
  ((confidence_tiers.1 90).1).2 (by norm_num)

/-- Characterization of a successful `load_preprocess`. -/
lemma load_preprocess_ok (doc : PreprocessDoc) (fs : List String) (m s : List ℚ)
    (ls : List String) (h : load_preprocess doc = Except.ok (fs, m, s, ls)) :
    fs = doc.features.getD ["temperature", "humidity", "pressure"] ∧
    doc.scaler = some ⟨m, s⟩ ∧ doc.labels = some ls ∧
    fs.length = m.length ∧ fs.length = s.length := by
  rcases hsc : doc.scaler with _ | sc
  · rw [load_preprocess, hsc] at h
    cases h
  · rcases hlb : doc.labels with _ | lbls
    · rw [load_preprocess, hsc, hlb] at h
      cases h
    · rw [load_preprocess, hsc, hlb] at h
      dsimp only at h
      by_cases hc : (doc.features.getD ["temperature", "humidity", "pressure"]).length ≠
          sc.mean.length ∨
          (doc.features.getD ["temperature", "humidity", "pressure"]).length ≠ sc.std.length
      · rw [if_pos hc] at h
        cases h
      · rw [if_neg hc] at h
        push_neg at hc
        injection h with h
        simp only [Prod.mk.injEq] at h
        obtain ⟨h1, h2, h3, h4⟩ := h
        subst h1
        subst h2
        subst h3
        subst h4
        exact ⟨rfl, by cases sc; rfl, rfl, hc.1, hc.2⟩

/-- C7: artifact loading fails whenever the descriptor or classifier file is
missing or the descriptor's feature/mean/scale lengths disagree, and a
successful load guarantees both files exist and the lengths agree, so a
descriptor violating the invariant is never used for inference. -/
theorem load_fatal_spec (ppE mdlE : Bool) (doc : PreprocessDoc) :
    (∀ fs m s ls, mainLoad ppE mdlE doc = Except.ok (fs, m, s, ls) →
      ppE = true ∧ mdlE = true ∧ fs.length = m.length ∧ fs.length = s.length) ∧
    (ppE = false ∨ mdlE = false → ∃ e, mainLoad ppE mdlE doc = Except.error e) ∧
    (∀ sc, doc.scaler = some sc →
      ((doc.features.getD ["temperature", "humidity", "pressure"]).length ≠ sc.mean.length ∨
        (doc.features.getD ["temperature", "humidity", "pressure"]).length ≠ sc.std.length) →
      ∃ e, mainLoad ppE mdlE doc = Except.error e) := by
  refine ⟨?_, ?_, ?_⟩
  · intro fs m s ls h
    cases ppE with
    | false => cases h
    | true =>
      cases mdlE with
      | false => cases h
      | true =>
        have hl : load_preprocess doc = Except.ok (fs, m, s, ls) := h
        obtain ⟨_, _, _, h4, h5⟩ := load_preprocess_ok doc fs m s ls hl
        exact ⟨rfl, rfl, h4, h5⟩
  · rintro (h | h) <;> subst h
    · exact ⟨PyError.fileNotFound "preprocess.json not found", rfl⟩
    · cases ppE with
      | false => exact ⟨PyError.fileNotFound "preprocess.json not found", rfl⟩
      | true => exact ⟨PyError.fileNotFound "weather_model.tflite not found", rfl⟩
  · intro sc hsc hne
    cases ppE with
    | false => exact ⟨PyError.fileNotFound "preprocess.json not found", rfl⟩
    | true =>
      cases mdlE with
      | false => exact ⟨PyError.fileNotFound "weather_model.tflite not found", rfl⟩
      | true =>
        rcases hlb : doc.labels with _ | lbls
        · refine ⟨PyError.keyError "labels", ?_⟩
          show load_preprocess doc = _
          rw [load_preprocess, hsc, hlb]
        · refine ⟨PyError.valueError
            ("Preprocess mismatch: features=" ++
              toString (doc.features.getD ["temperature", "humidity", "pressure"]).length ++
              ", mean=" ++ toString sc.mean.length ++ ", std=" ++ toString sc.std.length), ?_⟩
          show load_preprocess doc = _
          rw [load_preprocess, hsc, hlb]
          dsimp only
          rw [if_pos hne]

/-- C7 witness: the theorem applied to a mismatched descriptor (two
features, three means) with both files present, and to a missing descriptor
file. -/
theorem load_fatal_spec_witness :
    (∃ e, mainLoad true true ⟨some ["temperature", "humidity"],
      some ⟨[0, 0, 0], [1, 1, 1]⟩, some ["sunny", "rainy"]⟩ = Except.error e) ∧
    (∃ e, mainLoad false true ⟨none, none, none⟩ = Except.error e) :=
  ⟨(load_fatal_spec true true ⟨some ["temperature", "humidity"],
      some ⟨[0, 0, 0], [1, 1, 1]⟩, some ["sunny", "rainy"]⟩).2.2 ⟨[0, 0, 0], [1, 1, 1]⟩
      rfl (by norm_num),
    (load_fatal_spec false true ⟨none, none, none⟩).2.1 (Or.inl rfl)⟩

/-- C8: whenever any stage of the pipeline fails the entry point emits an
error payload carrying the message under "error" and the kind under "type",
exits non-zero and prints no prediction; when no stage fails it prints a
result carrying the label and the confidence, exits zero and emits no error
payload. -/
theorem entry_output_spec (ppE mdlE : Bool) (doc : PreprocessDoc) (payload : Payload)
    (model : List ℚ → List ℚ) :
    (∀ e, runMain ppE mdlE doc payload model = Except.error e →
      (entryPoint (runMain ppE mdlE doc payload model)).exitCode ≠ 0 ∧
      (entryPoint (runMain ppE mdlE doc payload model)).stdout = none ∧
      (entryPoint (runMain ppE mdlE doc payload model)).stderr = some (errorJson e) ∧
      (errorJson e).lookup "error" = some (JVal.str e.message) ∧
      (errorJson e).lookup "type" = some (JVal.str e.typeName)) ∧
    (∀ lbl conf, runMain ppE mdlE doc payload model = Except.ok (lbl, conf) →
      (entryPoint (runMain ppE mdlE doc payload model)).exitCode = 0 ∧
      (entryPoint (runMain ppE mdlE doc payload model)).stderr = none ∧
      (entryPoint (runMain ppE mdlE doc payload model)).stdout = some (resultJson lbl conf) ∧
      (resultJson lbl conf).lookup "prediction" = some (JVal.str lbl) ∧
      (resultJson lbl conf).lookup "confidence" = some (JVal.num conf)) := by
  constructor
  · intro e he
    rw [he]
    refine ⟨?_, rfl, rfl, ?_, ?_⟩
    · simp [entryPoint]
    · simp [errorJson, List.lookup]
    · simp [errorJson, List.lookup]
  · intro lbl conf he
    rw [he]
    refine ⟨rfl, rfl, rfl, ?_, ?_⟩
    · simp [resultJson, List.lookup]
    · simp [resultJson, List.lookup]

/-- C8 witness: the error side of `entry_output_spec` at a run with the
descriptor file missing, and the success side at a run with a trivial
one-class model. -/
theorem entry_output_spec_witness :
    ((entryPoint (runMain false true ⟨none, none, none⟩ [] (fun _ => []))).exitCode ≠ 0 ∧
      (entryPoint (runMain false true ⟨none, none, none⟩ [] (fun _ => []))).stdout = none ∧
      (entryPoint (runMain false true ⟨none, none, none⟩ [] (fun _ => []))).stderr =
        some (errorJson (PyError.fileNotFound "preprocess.json not found")) ∧
      (errorJson (PyError.fileNotFound "preprocess.json not found")).lookup "error" =
        some (JVal.str (PyError.fileNotFound "preprocess.json not found").message) ∧
      (errorJson (PyError.fileNotFound "preprocess.json not found")).lookup "type" =
        some (JVal.str (PyError.fileNotFound "preprocess.json not found").typeName)) ∧
    ((entryPoint (runMain true true ⟨some [], some ⟨[], []⟩, some ["clear"]⟩ []
        (fun _ => [1]))).exitCode = 0 ∧
      (entryPoint (runMain true true ⟨some [], some ⟨[], []⟩, some ["clear"]⟩ []
        (fun _ => [1]))).stderr = none ∧
      (entryPoint (runMain true true ⟨some [], some ⟨[], []⟩, some ["clear"]⟩ []
        (fun _ => [1]))).stdout = some (resultJson "clear" 1) ∧
      (resultJson "clear" 1).lookup "prediction" = some (JVal.str "clear") ∧
      (resultJson "clear" 1).lookup "confidence" = some (JVal.num 1)) :=
  ⟨(entry_output_spec false true ⟨none, none, none⟩ [] (fun _ => [])).1
      (PyError.fileNotFound "preprocess.json not found") rfl,
    (entry_output_spec true true ⟨some [], some ⟨[], []⟩, some ["clear"]⟩ []
      (fun _ => [1])).2 "clear" 1 rfl⟩

/-- C10: a descriptor without a "features" key loads with the default
feature list `["temperature", "humidity", "pressure"]` whenever the scaler
arrays have length 3, whereas a missing "scaler" or "labels" key makes the
load raise a `KeyError`. -/
theorem load_default_features_spec :
    (∀ (mean std : List ℚ) (lbls : List String), mean.length = 3 → std.length = 3 →
      load_preprocess ⟨none, some ⟨mean, std⟩, some lbls⟩ =
        Except.ok (["temperature", "humidity", "pressure"], mean, std, lbls)) ∧
    (∀ doc : PreprocessDoc, doc.scaler = none →
      load_preprocess doc = Except.error (PyError.keyError "scaler")) ∧
    (∀ (doc : PreprocessDoc) (sc : ScalerDoc), doc.scaler = some sc → doc.labels = none →
      load_preprocess doc = Except.error (PyError.keyError "labels")) := by
  refine ⟨?_, ?_, ?_⟩
  · intro mean std lbls hm hs
    rw [load_preprocess]
    dsimp only
    rw [if_neg (by simp [hm, hs])]
    rfl
  · intro doc h
    rw [load_preprocess, h]
  · intro doc sc h1 h2
    rw [load_preprocess, h1, h2]

/-- C10 witness: the default-features load at a concrete scaler of length 3,
and the KeyError cases at concrete descriptors. -/
theorem load_default_features_spec_witness :
    load_preprocess ⟨none, some ⟨[0, 0, 0], [1, 1, 1]⟩, some ["sunny", "rainy"]⟩ =
      Except.ok (["temperature", "humidity", "pressure"], [0, 0, 0], [1, 1, 1],
        ["sunny", "rainy"]) ∧
    load_preprocess ⟨none, none, some ["sunny"]⟩ =
      Except.error (PyError.keyError "scaler") ∧
    load_preprocess ⟨none, some ⟨[0], [1]⟩, none⟩ =
      Except.error (PyError.keyError "labels") :=
  ⟨load_default_features_spec.1 [0, 0, 0] [1, 1, 1] ["sunny", "rainy"] rfl rfl,
    load_default_features_spec.2.1 ⟨none, none, some ["sunny"]⟩ rfl,
    load_default_features_spec.2.2 ⟨none, some ⟨[0], [1]⟩, none⟩ ⟨[0], [1]⟩ rfl rfl⟩

end WeatherIoT
